import Mathlib

/-!
# Verification of the Movie Recommender filter engine

Shallow embedding of `src/final_project_REAPYTHON5RMVKZ/app.py`
(class `MovieRecommender`: `get_genres` and `filter_movies`).

Modelling decisions:
* A pandas row becomes a `Movie` structure; nullable text columns become
  `Option String` (pandas `NaN` ↦ `none`).  `Rating` is a rational number
  (the claims only compare ratings against rational thresholds).
* `pandas.Series.str.contains(pat, case=False, na=False)` treats `pat`
  as a regular expression.  The patterns the program builds are genre
  tags joined with `"|"` and the raw search text, so matching is modelled
  by a small regex engine covering exactly the fragment those patterns
  exercise: literal characters, the `.` wildcard, and top-level
  alternation `"|"`.  Any other regex metacharacter makes the model
  report a pattern error (`Except.error`), mirroring that such characters
  leave the literal-substring fragment — in particular an unbalanced
  `"("` makes Python's `re` raise.  Case-insensitivity (`case=False`,
  resp. the explicit `.lower()` calls) is modelled by lowering both
  pattern and subject.
* `DataFrame.sort_values(by=["Year","Rating"], ascending=[False,False])`
  sorts on two keys; pandas performs a stable lexicographic sort for
  multi-key sorts, modelled by the stable `List.insertionSort` with the
  year-descending-then-rating-descending comparison (any two stable
  sorts agree, so the choice of stable algorithm is immaterial).
* Python exceptions become `Except.error`; `get_genres` raises
  (`AttributeError`) when a `Genre` cell is null, since `g.split` is
  called on the raw cell.
-/

/-- One row of the movies table: columns Title, Genre, Rating, Year,
"Runtime (Minutes)", Director, Description.  Text columns are nullable. -/
structure Movie where
  title : Option String
  genre : Option String
  rating : ℚ
  year : Int
  runtime : Int
  director : Option String
  description : Option String
deriving DecidableEq, Repr

/-- The characters Python's `re` treats specially. -/
def reMetachars : List Char :=
  ['.', '^', '$', '*', '+', '?', '{', '}', '[', ']', '\\', '|', '(', ')']

/-- Character-wise ASCII lowering, the model of Python's `str.lower()`
(resp. of comparing under `re.IGNORECASE`). -/
def lowerChars (cs : List Char) : List Char :=
  cs.map Char.toLower

/-- Split a pattern into its top-level alternation branches, the way the
`re` parser consumes `"|"` (no grouping construct is in the supported
fragment, so every `"|"` is top-level). -/
def splitBranches : List Char → List (List Char)
  | [] => [[]]
  | c :: rest =>
    if c = '|' then [] :: splitBranches rest
    else
      match splitBranches rest with
      | [] => [[c]]
      | b :: bs => (c :: b) :: bs

/-- A regex branch is supported by the model when its only metacharacter
is the `.` wildcard. -/
def branchOk (b : List Char) : Bool :=
  b.all (fun c => c = '.' || !(reMetachars.contains c))

/-- The pattern compiles in the supported fragment.  An unsupported
metacharacter leaves the fragment — e.g. the unbalanced `"("` the source
can build makes Python's `re.compile` raise `re.error`. -/
def patternOk (pattern : String) : Bool :=
  (splitBranches pattern.toList).all branchOk

/-- Does the branch match a prefix of `s`?  `.` matches any character,
every other (supported) character matches itself. -/
def matchAt : List Char → List Char → Bool
  | [], _ => true
  | _ :: _, [] => false
  | p :: ps, c :: cs => (p = '.' || p = c) && matchAt ps cs

/-- Does the branch match starting at some position of `s`?
(`re.search` semantics: unanchored.) -/
def searchFrom (b : List Char) : List Char → Bool
  | [] => matchAt b []
  | c :: cs => matchAt b (c :: cs) || searchFrom b cs

/-- Case-insensitive `re.search(pattern, s) is not None` for a supported
pattern: some `"|"`-branch matches somewhere in `s`, comparing both
sides lowercased.  This models both `str.contains(pat, case=False)`
(genre step) and lowering both sides before a case-sensitive
`str.contains` (search step). -/
def reContainsCI (pattern s : String) : Bool :=
  (splitBranches pattern.toList).any (fun b => searchFrom (lowerChars b) (lowerChars s.toList))

/-- Python line `selected_genres = [g for g in genres if g != "All"]`. -/
def selectedGenres (genres : List String) : List String :=
  genres.filter (fun g => g ≠ "All")

/-- Python line `pattern = "|".join(selected_genres)`. -/
def genrePattern (genres : List String) : String :=
  String.intercalate "|" (selectedGenres genres)

/-- Genre step of `filter_movies`: when `selected_genres` is non-empty,
`data = data[data["Genre"].str.contains(pattern, case=False, na=False)]`.
An unsupported pattern is a regex-compile error (`re.error`). -/
def genreStep (genres : List String) (df : List Movie) : Except String (List Movie) :=
  if (selectedGenres genres).isEmpty then .ok df
  else if patternOk (genrePattern genres) then
    .ok (df.filter (fun m =>
      match m.genre with
      | some g => reContainsCI (genrePattern genres) g
      | none => false))
  else .error "re.error: bad pattern"

/-- Rating step of `filter_movies`: when `rating > 0`, keep rows with
`Rating >= rating` and `Rating < rating + 1`. -/
def ratingStep (rating : ℚ) (df : List Movie) : List Movie :=
  if 0 < rating then
    df.filter (fun m => decide (rating ≤ m.rating) && decide (m.rating < rating + 1))
  else df

/-- Search step of `filter_movies`: when `search_query` is non-empty,
`data = data[data["Title"].str.lower().str.contains(search_query.lower(), na=False)]`. -/
def searchStep (search_query : String) (df : List Movie) : Except String (List Movie) :=
  if search_query.isEmpty then .ok df
  else if patternOk search_query then
    .ok (df.filter (fun m =>
      match m.title with
      | some t => reContainsCI search_query t
      | none => false))
  else .error "re.error: bad pattern"

/-- The two-key comparison of the final
`sort_values(by=["Year","Rating"], ascending=[False,False])`:
year descending first, rating descending second. -/
def movieLE (a b : Movie) : Prop :=
  b.year < a.year ∨ (a.year = b.year ∧ b.rating ≤ a.rating)

instance (a b : Movie) : Decidable (movieLE a b) :=
  inferInstanceAs (Decidable (b.year < a.year ∨ (a.year = b.year ∧ b.rating ≤ a.rating)))

instance : IsTotal Movie movieLE where
  total a b := by
    unfold movieLE
    rcases lt_trichotomy a.year b.year with h | h | h
    · exact Or.inr (Or.inl h)
    · rcases le_total b.rating a.rating with h2 | h2
      · exact Or.inl (Or.inr ⟨h, h2⟩)
      · exact Or.inr (Or.inr ⟨h.symm, h2⟩)
    · exact Or.inl (Or.inl h)

instance : IsTrans Movie movieLE where
  trans a b c hab hbc := by
    unfold movieLE at *
    rcases hab with h1 | ⟨e1, r1⟩
    · rcases hbc with h2 | ⟨e2, r2⟩
      · exact Or.inl (h2.trans h1)
      · exact Or.inl (e2 ▸ h1)
    · rcases hbc with h2 | ⟨e2, r2⟩
      · exact Or.inl (e1 ▸ h2)
      · exact Or.inr ⟨e1.trans e2, r2.trans r1⟩

/-- Final sort of `filter_movies`: pandas performs a stable sort for
multi-key `sort_values`, modelled by the stable `List.insertionSort`. -/
def sortStep (df : List Movie) : List Movie :=
  df.insertionSort movieLE

/-- The in-memory recommender: `self.df` is the loaded table. -/
structure MovieRecommender where
  df : List Movie
deriving DecidableEq, Repr

/-- Method `MovieRecommender.filter_movies(self, genres, rating, search_query)`:
copy the table, apply the genre, rating and search filters in order,
and return the two-key descending sort of the result. -/
def MovieRecommender.filter_movies (self : MovieRecommender) (genres : List String)
    (rating : ℚ) (search_query : String) : Except String (List Movie) :=
  match genreStep genres self.df with
  | .error e => .error e
  | .ok data =>
    match searchStep search_query (ratingStep rating data) with
    | .error e => .error e
    | .ok data => .ok (sortStep data)

/-- A call to `filter_movies` as a state transition on the recommender:
the Python method reads `self.df` (copying it) and never assigns to it,
so the resulting state carries the same table. -/
def filterCall (self : MovieRecommender) (genres : List String) (rating : ℚ)
    (search_query : String) : Except String (List Movie) × MovieRecommender :=
  (self.filter_movies genres rating search_query, self)

/-- Each piece of `g.split(',')` after `genre.strip()`. -/
def splitTags (g : String) : List String :=
  (g.splitOn ",").map String.trim

/-- Method `MovieRecommender.get_genres`: iterate over the `Genre` column,
split each cell on `","`, strip each tag, collect into a set, return the
set sorted.  A null cell is a float in pandas, so `g.split` raises
`AttributeError`. -/
def MovieRecommender.get_genres (self : MovieRecommender) : Except String (List String) :=
  if self.df.all (fun m => m.genre.isSome) then
    .ok (((self.df.map (fun m => splitTags (m.genre.getD ""))).flatten.dedup).insertionSort (· ≤ ·))
  else .error "AttributeError: float has no attribute split"

/-- The spec-side notion for the genre and search filters: `needle`
occurs in `hay` as a case-insensitive substring. -/
def containsCI (needle hay : String) : Prop :=
  lowerChars needle.toList <:+: lowerChars hay.toList

instance (a b : String) : Decidable (containsCI a b) :=
  inferInstanceAs (Decidable (_ <:+: _))

/-- The two-key equality used to express sort stability. -/
def keyEq (y : Int) (r : ℚ) (m : Movie) : Bool :=
  decide (m.year = y) && decide (m.rating = r)

/-! ### Concrete movies and tables used in witnesses and counterexamples -/

/-- Rating 7.9 as an explicit rational. -/
def r79 : ℚ := Rat.mk' 79 10 (by decide) (by decide)

/-- Rating 6.9 as an explicit rational. -/
def r69 : ℚ := Rat.mk' 69 10 (by decide) (by decide)

def s2010 : Movie := ⟨some "Older", some "Action", 8, 2010, 100, none, none⟩

def s2015 : Movie := ⟨some "Newer", some "Drama", 5, 2015, 100, none, none⟩

def cA : Movie := ⟨some "Action Movie", some "Action", 7, 2000, 100, none, none⟩

def cW : Movie := ⟨some "War Epic", some "Action, Drama", 7, 2001, 100, none, none⟩

def cX : Movie := ⟨some "Laughs", some "Comedy", 7, 2002, 100, none, none⟩

def x79 : Movie := ⟨some "Band A", some "Drama", r79, 2003, 100, none, none⟩

def x80 : Movie := ⟨some "Band B", some "Drama", 8, 2003, 100, none, none⟩

def x69 : Movie := ⟨some "Band C", some "Drama", r69, 2003, 100, none, none⟩

def bb : Movie := ⟨some "Batman Begins", some "Action, Crime", 8, 2005, 140, none, none⟩

def z1 : Movie := ⟨some "Zootopia", some "Animation, Comedy", 8, 2016, 108, none, none⟩

def g1 : Movie := ⟨some "First", some "Action, Comedy", 7, 2010, 100, none, none⟩

def g2 : Movie := ⟨some "Second", some "comedy, Drama", 7, 2011, 100, none, none⟩

def nm : Movie := ⟨some "No Genre", none, 5, 1999, 100, none, none⟩

def rc1 : MovieRecommender := ⟨[s2010, s2015]⟩

def rc5 : MovieRecommender := ⟨[g1, g2]⟩

def rc6 : MovieRecommender := ⟨[cA]⟩

def rc7 : MovieRecommender := ⟨[]⟩

def rc9 : MovieRecommender := ⟨[z1]⟩

def rc10 : MovieRecommender := ⟨[nm]⟩

/-! ### Helper lemmas: the literal fragment of the regex model -/

theorem matchAt_iff {b s : List Char} (hb : '.' ∉ b) :
    matchAt b s = true ↔ b <+: s := by
  induction b generalizing s with
  | nil => simp [matchAt]
  | cons p ps ih =>
    have hp : p ≠ '.' := fun h => hb (h ▸ List.mem_cons_self p ps)
    have hps : '.' ∉ ps := fun h => hb (List.mem_cons_of_mem p h)
    cases s with
    | nil => simp [matchAt]
    | cons c cs =>
      simp [matchAt, hp, List.cons_prefix_cons, ih hps, and_comm]

theorem searchFrom_iff {b s : List Char} (hb : '.' ∉ b) :
    searchFrom b s = true ↔ b <:+: s := by
  induction s with
  | nil =>
    simp [searchFrom, matchAt_iff hb, List.prefix_nil, List.infix_nil]
  | cons c cs ih =>
    simp [searchFrom, matchAt_iff hb, ih, List.infix_cons_iff]

theorem splitBranches_no_bar {cs : List Char} (h : '|' ∉ cs) :
    splitBranches cs = [cs] := by
  induction cs with
  | nil => rfl
  | cons c rest ih =>
    have hc : c ≠ '|' := fun e => h (e ▸ List.mem_cons_self c rest)
    have hrest : '|' ∉ rest := fun e => h (List.mem_cons_of_mem c e)
    simp [splitBranches, hc, ih hrest]

theorem splitBranches_append {t rest : List Char} (h : '|' ∉ t) :
    splitBranches (t ++ '|' :: rest) = t :: splitBranches rest := by
  induction t with
  | nil => simp [splitBranches]
  | cons c t ih =>
    have hc : c ≠ '|' := fun e => h (e ▸ List.mem_cons_self c t)
    have ht : '|' ∉ t := fun e => h (List.mem_cons_of_mem c e)
    rw [List.cons_append]
    simp only [splitBranches, hc, if_false, ih ht]

theorem intercalate_go_data (as : List String) (acc : String) :
    (String.intercalate.go acc "|" as).data =
      acc.data ++ as.flatMap (fun t => '|' :: t.data) := by
  induction as generalizing acc with
  | nil => simp [String.intercalate.go]
  | cons a as ih =>
    show (String.intercalate.go (acc ++ "|" ++ a) "|" as).data = _
    rw [ih]
    simp [String.data_append]

theorem intercalate_bar_data (a : String) (as : List String) :
    (String.intercalate "|" (a :: as)).data =
      a.data ++ as.flatMap (fun t => '|' :: t.data) :=
  intercalate_go_data as a

theorem splitBranches_intercalate :
    ∀ (tags : List String), (∀ t ∈ tags, '|' ∉ t.data) → tags ≠ [] →
      splitBranches (String.intercalate "|" tags).toList = tags.map String.data
  | [], _, h0 => absurd rfl h0
  | [a], h, _ => by
    show splitBranches (String.intercalate "|" [a]).data = [a.data]
    have : String.intercalate "|" [a] = a := rfl
    rw [this]
    exact splitBranches_no_bar (h a (List.mem_singleton_self a))
  | a :: b :: rest, h, _ => by
    show splitBranches (String.intercalate "|" (a :: b :: rest)).data = _
    have hd : (String.intercalate "|" (a :: b :: rest)).data =
        a.data ++ '|' :: (String.intercalate "|" (b :: rest)).data := by
      rw [intercalate_bar_data, intercalate_bar_data]
      simp
    rw [hd, splitBranches_append (h a (by simp))]
    have ih := splitBranches_intercalate (b :: rest)
      (fun t ht => h t (List.mem_cons_of_mem a ht)) (by simp)
    rw [show (String.intercalate "|" (b :: rest)).toList =
      (String.intercalate "|" (b :: rest)).data from rfl] at ih
    rw [ih]
    rfl

/-! ### Helper lemmas: lowering stays inside the literal fragment -/

theorem toLower_not_meta {c : Char} (h : c ∉ reMetachars) :
    Char.toLower c ∉ reMetachars := by
  unfold Char.toLower
  simp only []
  by_cases h2 : c.toNat ≥ 65 ∧ c.toNat ≤ 90
  · rw [if_pos h2]
    obtain ⟨h65, h90⟩ := h2
    set n := c.toNat with hn
    clear_value n
    interval_cases n <;> decide
  · rw [if_neg h2]
    exact h

theorem lowerChars_no_dot {cs : List Char} (h : ∀ c ∈ cs, c ∉ reMetachars) :
    '.' ∉ lowerChars cs := by
  intro hmem
  rcases List.mem_map.mp hmem with ⟨c, hc, he⟩
  exact toLower_not_meta (h c hc) (he ▸ (by decide : ('.' : Char) ∈ reMetachars))

theorem branchOk_of_no_meta {cs : List Char} (h : ∀ c ∈ cs, c ∉ reMetachars) :
    branchOk cs = true := by
  simp only [branchOk, List.all_eq_true]
  intro c hc
  simp [h c hc]

theorem no_bar_of_no_meta {t : String} (h : ∀ c ∈ t.toList, c ∉ reMetachars) :
    '|' ∉ t.data := fun hbar => h '|' hbar (by decide)

theorem reContainsCI_intercalate_iff {tags : List String} {g : String}
    (h : ∀ t ∈ tags, ∀ c ∈ t.toList, c ∉ reMetachars) (h0 : tags ≠ []) :
    reContainsCI (String.intercalate "|" tags) g = true ↔ ∃ t ∈ tags, containsCI t g := by
  unfold reContainsCI
  rw [splitBranches_intercalate tags (fun t ht => no_bar_of_no_meta (h t ht)) h0]
  simp only [List.any_eq_true, List.mem_map, exists_exists_and_eq_and]
  constructor
  · rintro ⟨t, ht, hf⟩
    exact ⟨t, ht, (searchFrom_iff (lowerChars_no_dot (h t ht))).mp hf⟩
  · rintro ⟨t, ht, hf⟩
    exact ⟨t, ht, (searchFrom_iff (lowerChars_no_dot (h t ht))).mpr hf⟩

theorem patternOk_intercalate {tags : List String}
    (h : ∀ t ∈ tags, ∀ c ∈ t.toList, c ∉ reMetachars) (h0 : tags ≠ []) :
    patternOk (String.intercalate "|" tags) = true := by
  unfold patternOk
  rw [splitBranches_intercalate tags (fun t ht => no_bar_of_no_meta (h t ht)) h0]
  simp only [List.all_eq_true, List.mem_map, forall_exists_index, and_imp,
    forall_apply_eq_imp_iff₂]
  exact fun t ht => branchOk_of_no_meta (h t ht)

/-! ### Helper lemmas: the final sort -/

theorem sortStep_pairwise (l : List Movie) : (sortStep l).Pairwise movieLE :=
  List.sorted_insertionSort movieLE l

theorem sortStep_perm (l : List Movie) : List.Perm (sortStep l) l :=
  List.perm_insertionSort movieLE l

theorem sortStep_filter_key (l : List Movie) (y : Int) (r : ℚ) :
    (sortStep l).filter (keyEq y r) = l.filter (keyEq y r) := by
  have hpair : (l.filter (keyEq y r)).Pairwise movieLE := by
    apply List.pairwise_of_forall_mem_list
    intro a ha b hb
    rw [List.mem_filter] at ha hb
    obtain ⟨-, ha2⟩ := ha
    obtain ⟨-, hb2⟩ := hb
    unfold keyEq at ha2 hb2
    simp only [Bool.and_eq_true, decide_eq_true_eq] at ha2 hb2
    exact Or.inr ⟨ha2.1.trans hb2.1.symm, le_of_eq (hb2.2.trans ha2.2.symm)⟩
  have hsub : List.Sublist (l.filter (keyEq y r)) (sortStep l) :=
    List.sublist_insertionSort hpair (List.filter_sublist l)
  have keyidem : (l.filter (keyEq y r)).filter (keyEq y r) = l.filter (keyEq y r) :=
    List.filter_eq_self.mpr (fun a ha => (List.mem_filter.mp ha).2)
  have hsub2 : List.Sublist (l.filter (keyEq y r)) ((sortStep l).filter (keyEq y r)) :=
    keyidem ▸ List.Sublist.filter (keyEq y r) hsub
  have hperm : List.Perm ((sortStep l).filter (keyEq y r)) (l.filter (keyEq y r)) :=
    (sortStep_perm l).filter (keyEq y r)
  exact (hsub2.eq_of_length hperm.length_eq.symm).symm

/-! ### Helper lemmas: each filter step shrinks the table -/

theorem genreStep_ok_sublist {genres : List String} {df out : List Movie}
    (h : genreStep genres df = Except.ok out) : List.Sublist out df := by
  unfold genreStep at h
  split at h
  · cases h
    exact List.Sublist.refl df
  · split at h
    · cases h
      exact List.filter_sublist df
    · cases h

theorem ratingStep_sublist (rating : ℚ) (df : List Movie) :
    List.Sublist (ratingStep rating df) df := by
  unfold ratingStep
  split
  · exact List.filter_sublist df
  · exact List.Sublist.refl df

theorem searchStep_ok_sublist {q : String} {df out : List Movie}
    (h : searchStep q df = Except.ok out) : List.Sublist out df := by
  unfold searchStep at h
  split at h
  · cases h
    exact List.Sublist.refl df
  · split at h
    · cases h
      exact List.filter_sublist df
    · cases h

theorem filter_movies_ok {rec : MovieRecommender} {genres : List String}
    {rating : ℚ} {q : String} {out : List Movie}
    (h : rec.filter_movies genres rating q = Except.ok out) :
    ∃ d1 d2, genreStep genres rec.df = Except.ok d1 ∧
      searchStep q (ratingStep rating d1) = Except.ok d2 ∧ out = sortStep d2 := by
  unfold MovieRecommender.filter_movies at h
  cases hg : genreStep genres rec.df with
  | error e => rw [hg] at h; cases h
  | ok d1 =>
    rw [hg] at h
    have h2 : (match searchStep q (ratingStep rating d1) with
        | Except.error e => Except.error e
        | Except.ok data => Except.ok (sortStep data)) = Except.ok out := h
    cases hs : searchStep q (ratingStep rating d1) with
    | error e => rw [hs] at h2; cases h2
    | ok d2 =>
      rw [hs] at h2
      cases h2
      exact ⟨d1, d2, rfl, hs, rfl⟩

theorem genreStep_isOk_of_literal {genres : List String} (df : List Movie)
    (hlit : ∀ t ∈ genres, ∀ c ∈ t.toList, c ∉ reMetachars) :
    ∃ out, genreStep genres df = Except.ok out := by
  by_cases he : (selectedGenres genres).isEmpty
  · exact ⟨df, by unfold genreStep; rw [if_pos he]⟩
  · have hne : selectedGenres genres ≠ [] := fun h2 => he (by rw [h2]; rfl)
    have hsel : ∀ t ∈ selectedGenres genres, ∀ c ∈ t.toList, c ∉ reMetachars :=
      fun t ht => hlit t (List.mem_of_mem_filter ht)
    exact ⟨df.filter (fun m => match m.genre with
        | some g => reContainsCI (genrePattern genres) g
        | none => false), by
      unfold genreStep
      rw [if_neg he, if_pos (by unfold genrePattern; exact patternOk_intercalate hsel hne)]⟩

theorem searchStep_isOk_of_literal {q : String} (df : List Movie)
    (hlit : ∀ c ∈ q.toList, c ∉ reMetachars) :
    ∃ out, searchStep q df = Except.ok out := by
  by_cases he : q.isEmpty
  · exact ⟨df, by unfold searchStep; rw [if_pos he]⟩
  · have hq : ∀ t ∈ [q], ∀ c ∈ t.toList, c ∉ reMetachars := by simpa using hlit
    have hpat : patternOk q = true := by
      have h2 := patternOk_intercalate hq (by simp)
      rwa [show String.intercalate "|" [q] = q from rfl] at h2
    exact ⟨df.filter (fun m => match m.title with
        | some t => reContainsCI q t
        | none => false), by
      unfold searchStep
      rw [if_neg he, if_pos hpat]⟩

/-! ### Claim theorems -/

/-- C1: an `ok` result of `filter_movies` is sorted by Year descending then
Rating descending, and the sort is stable: for any key pair, the records of
the output carrying that key form (in output order) a subsequence of the
input dataset, i.e. they retain their relative input order. -/
theorem filter_movies_sorted_and_stable {rec : MovieRecommender} {genres : List String}
    {rating : ℚ} {q : String} {out : List Movie}
    (h : rec.filter_movies genres rating q = Except.ok out) :
    out.Pairwise (fun a b => b.year < a.year ∨ (a.year = b.year ∧ b.rating ≤ a.rating)) ∧
    ∀ y r, List.Sublist (out.filter (keyEq y r)) rec.df := by
  obtain ⟨d1, d2, hg, hs, hout⟩ := filter_movies_ok h
  subst hout
  constructor
  · exact sortStep_pairwise d2
  · intro y r
    rw [sortStep_filter_key]
    have hd2 : List.Sublist d2 rec.df :=
      ((searchStep_ok_sublist hs).trans (ratingStep_sublist rating d1)).trans
        (genreStep_ok_sublist hg)
    exact (List.filter_sublist d2).trans hd2

/-- C1 witness: on the spec's example table the call succeeds, the record
with Year 2015 sorts before the one with Year 2010, and the conclusion holds. -/
theorem filter_movies_sorted_and_stable_witness :
    rc1.filter_movies ["All"] (-1) "" = Except.ok [s2015, s2010] ∧
    (List.Pairwise (fun a b => b.year < a.year ∨ (a.year = b.year ∧ b.rating ≤ a.rating))
        [s2015, s2010] ∧
      ∀ y r, List.Sublist (List.filter (keyEq y r) [s2015, s2010]) rc1.df) :=
  ⟨by rfl, @filter_movies_sorted_and_stable rc1 ["All"] (-1) "" [s2015, s2010] (by rfl)⟩

/-- C3: when the threshold is positive the rating step keeps exactly the
records with Rating in the half-open band from the threshold (inclusive) to
threshold plus one (exclusive), preserving order; a non-positive threshold
keeps every record. -/
theorem ratingStep_characterization (df : List Movie) (r : ℚ) :
    (0 < r →
      (∀ m, m ∈ ratingStep r df ↔ m ∈ df ∧ r ≤ m.rating ∧ m.rating < r + 1) ∧
        List.Sublist (ratingStep r df) df) ∧
    (r ≤ 0 → ratingStep r df = df) := by
  constructor
  · intro hr
    constructor
    · intro m
      unfold ratingStep
      rw [if_pos hr, List.mem_filter]
      simp only [Bool.and_eq_true, decide_eq_true_eq]
    · exact ratingStep_sublist r df
  · intro hr
    unfold ratingStep
    rw [if_neg (not_lt.mpr hr)]

/-- C3 witness: with threshold 7 a record rated 7.9 is kept while records
rated 8.0 and 6.9 are dropped. -/
theorem ratingStep_characterization_witness :
    (0 : ℚ) < 7 ∧
    ((∀ m, m ∈ ratingStep 7 [x79, x80, x69] ↔
        m ∈ [x79, x80, x69] ∧ 7 ≤ m.rating ∧ m.rating < 7 + 1) ∧
      List.Sublist (ratingStep 7 [x79, x80, x69]) [x79, x80, x69]) ∧
    ratingStep 7 [x79, x80, x69] = [x79] := by
  refine ⟨by norm_num, (ratingStep_characterization [x79, x80, x69] 7).1 (by norm_num), ?_⟩
  unfold ratingStep
  rw [if_pos (by norm_num : (0:ℚ) < 7)]
  simp only [List.filter_cons, List.filter_nil, x79, x80, x69, r79, r69]
  norm_num [Rat.mk'_eq_divInt, Rat.divInt_eq_div]

/-- C6: a `filter_movies` call leaves the stored table untouched, and every
record of the returned view is drawn from the stored table. -/
theorem filter_call_preserves_df (rec : MovieRecommender) (genres : List String)
    (rating : ℚ) (q : String) :
    (filterCall rec genres rating q).2.df = rec.df ∧
    ∀ out, (filterCall rec genres rating q).1 = Except.ok out → ∀ m ∈ out, m ∈ rec.df := by
  refine ⟨rfl, ?_⟩
  intro out h m hm
  obtain ⟨d1, d2, hg, hs, hout⟩ := filter_movies_ok h
  subst hout
  have hmem : m ∈ d2 := ((sortStep_perm d2).mem_iff).mp hm
  exact (((searchStep_ok_sublist hs).trans (ratingStep_sublist rating d1)).trans
    (genreStep_ok_sublist hg)).subset hmem

/-- C6 witness: a concrete call returns a view while the stored table is
unchanged. -/
theorem filter_call_preserves_df_witness :
    (filterCall rc6 ["All"] (-1) "").2.df = rc6.df ∧
    (filterCall rc6 ["All"] (-1) "").1 = Except.ok [cA] ∧
    ∀ m ∈ [cA], m ∈ rc6.df :=
  ⟨(filter_call_preserves_df rc6 ["All"] (-1) "").1, by rfl,
    (filter_call_preserves_df rc6 ["All"] (-1) "").2 [cA] (by rfl)⟩

/-- C8: two successive `filter_movies` calls with the same arguments return
the same view: the call does not change the recommender, and the result is a
deterministic function of the stored table and the arguments. -/
theorem filter_call_idempotent (rec : MovieRecommender) (genres : List String)
    (rating : ℚ) (q : String) :
    (filterCall (filterCall rec genres rating q).2 genres rating q).1 =
      (filterCall rec genres rating q).1 := rfl

/-- C10: `get_genres` fails (the Python code raises `AttributeError`) as soon
as some record has a null Genre cell. -/
theorem get_genres_null_raises {rec : MovieRecommender} {m : Movie}
    (hm : m ∈ rec.df) (hnull : m.genre = none) :
    rec.get_genres = Except.error "AttributeError: float has no attribute split" := by
  unfold MovieRecommender.get_genres
  rw [if_neg]
  intro hall
  rw [List.all_eq_true] at hall
  have h2 := hall m hm
  rw [hnull] at h2
  cases h2

/-- C10 witness: a table with one null-Genre record makes `get_genres` fail. -/
theorem get_genres_null_raises_witness :
    nm ∈ rc10.df ∧ nm.genre = none ∧
    rc10.get_genres = Except.error "AttributeError: float has no attribute split" :=
  ⟨by decide, rfl, @get_genres_null_raises rc10 nm (by decide) rfl⟩

/-- C2 (counterexample): with the genre selection ["."], the genre step keeps
a record whose Genre field does not contain "." as a substring — the tag acts
as a regex wildcard, refuting the literal-substring reading for arbitrary
selections. -/
theorem genre_filter_regex_counterexample :
    genreStep ["."] [cA] = Except.ok [cA] ∧ ¬ containsCI "." "Action" :=
  ⟨by rfl, by decide⟩

/-- C2 (amended): for selections whose tags are free of regex
metacharacters, the genre step keeps exactly the records whose Genre contains
some selected tag as a case-insensitive substring (order preserved, null
Genre non-matching); a selection reducing to [] or ["All"] keeps every
record. -/
theorem genreStep_characterization (genres : List String) (df : List Movie) :
    (selectedGenres genres = [] → genreStep genres df = Except.ok df) ∧
    ((∀ t ∈ genres, ∀ c ∈ t.toList, c ∉ reMetachars) → selectedGenres genres ≠ [] →
      ∃ out, genreStep genres df = Except.ok out ∧ List.Sublist out df ∧
        ∀ m, m ∈ out ↔ m ∈ df ∧ ∃ g, m.genre = some g ∧
          ∃ t ∈ selectedGenres genres, containsCI t g) := by
  constructor
  · intro he
    unfold genreStep
    rw [if_pos (by rw [List.isEmpty_iff]; exact he)]
  · intro hlit hne
    have hsel : ∀ t ∈ selectedGenres genres, ∀ c ∈ t.toList, c ∉ reMetachars :=
      fun t ht => hlit t (List.mem_of_mem_filter ht)
    have hpat : patternOk (genrePattern genres) = true := by
      unfold genrePattern
      exact patternOk_intercalate hsel hne
    unfold genreStep
    rw [if_neg (fun h2 => hne (List.isEmpty_iff.mp h2)), if_pos hpat]
    refine ⟨_, rfl, List.filter_sublist df, ?_⟩
    intro m
    rw [List.mem_filter]
    refine and_congr_right fun _ => ?_
    cases hmg : m.genre with
    | none => simp
    | some g =>
      show reContainsCI (genrePattern genres) g = true ↔ _
      unfold genrePattern
      rw [reContainsCI_intercalate_iff hsel hne]
      simp

/-- C2 witness: the selection ["All", "action"] keeps exactly the record
whose Genre "Action, Drama" contains "action" case-insensitively. -/
theorem genreStep_characterization_witness :
    (∀ t ∈ ["All", "action"], ∀ c ∈ t.toList, c ∉ reMetachars) ∧
    selectedGenres ["All", "action"] ≠ [] ∧
    (∃ out, genreStep ["All", "action"] [cW, cX] = Except.ok out ∧
      List.Sublist out [cW, cX] ∧
        ∀ m, m ∈ out ↔ m ∈ [cW, cX] ∧ ∃ g, m.genre = some g ∧
          ∃ t ∈ selectedGenres ["All", "action"], containsCI t g) ∧
    genreStep ["All", "action"] [cW, cX] = Except.ok [cW] :=
  ⟨by decide, by decide,
    (genreStep_characterization ["All", "action"] [cW, cX]).2 (by decide) (by decide),
    by rfl⟩

/-- C4 (counterexample): searching for "." keeps a record whose Title does
not contain "." as a substring — the search text acts as a regex wildcard,
refuting the literal-substring reading for arbitrary search texts. -/
theorem search_filter_regex_counterexample :
    searchStep "." [z1] = Except.ok [z1] ∧ ¬ containsCI "." "Zootopia" :=
  ⟨by rfl, by decide⟩

/-- C4 (amended): for search text free of regex metacharacters, the text
step keeps exactly the records whose Title contains the text as a
case-insensitive substring (order preserved, null Title non-matching);
empty text keeps every record. -/
theorem searchStep_characterization (df : List Movie) (q : String) :
    (q = "" → searchStep q df = Except.ok df) ∧
    ((∀ c ∈ q.toList, c ∉ reMetachars) → q ≠ "" →
      ∃ out, searchStep q df = Except.ok out ∧ List.Sublist out df ∧
        ∀ m, m ∈ out ↔ m ∈ df ∧ ∃ t, m.title = some t ∧ containsCI q t) := by
  constructor
  · intro he
    unfold searchStep
    rw [if_pos (by rw [String.isEmpty_iff]; exact he)]
  · intro hlit hne
    have hq : ∀ t ∈ [q], ∀ c ∈ t.toList, c ∉ reMetachars := by simpa using hlit
    have hq0 : ([q] : List String) ≠ [] := by simp
    have hpat : patternOk q = true := by
      have h2 := patternOk_intercalate hq hq0
      rwa [show String.intercalate "|" [q] = q from rfl] at h2
    unfold searchStep
    rw [if_neg (fun h2 => hne ((String.isEmpty_iff q).mp h2)), if_pos hpat]
    refine ⟨_, rfl, List.filter_sublist df, ?_⟩
    intro m
    rw [List.mem_filter]
    refine and_congr_right fun _ => ?_
    cases hmt : m.title with
    | none => simp
    | some t =>
      show reContainsCI q t = true ↔ _
      have hiff := @reContainsCI_intercalate_iff [q] t hq hq0
      rw [show String.intercalate "|" [q] = q from rfl] at hiff
      rw [hiff]
      simp

/-- C4 witness: searching "batman" keeps exactly the record titled
"Batman Begins". -/
theorem searchStep_characterization_witness :
    (∀ c ∈ "batman".toList, c ∉ reMetachars) ∧ "batman" ≠ "" ∧
    (∃ out, searchStep "batman" [bb, cX] = Except.ok out ∧
      List.Sublist out [bb, cX] ∧
        ∀ m, m ∈ out ↔ m ∈ [bb, cX] ∧ ∃ t, m.title = some t ∧
          containsCI "batman" t) ∧
    searchStep "batman" [bb, cX] = Except.ok [bb] ∧
    containsCI "batman" "Batman Begins" :=
  ⟨by decide, by decide,
    (searchStep_characterization [bb, cX] "batman").2 (by decide) (by decide),
    by rfl, by decide⟩

/-- C5: when every Genre cell is present, `get_genres` returns the strictly
increasing (hence deduplicated, by exact string) enumeration of all tags
obtained by splitting each Genre field on commas and trimming whitespace. -/
theorem get_genres_characterization {rec : MovieRecommender}
    (h : ∀ m ∈ rec.df, m.genre.isSome) :
    ∃ l, rec.get_genres = Except.ok l ∧ l.Pairwise (· < ·) ∧
      ∀ t, t ∈ l ↔ ∃ m ∈ rec.df, ∃ g, m.genre = some g ∧ t ∈ splitTags g := by
  unfold MovieRecommender.get_genres
  rw [if_pos (List.all_eq_true.mpr h)]
  refine ⟨_, rfl, ?_, ?_⟩
  · have hs : List.Pairwise (· ≤ ·)
        (((rec.df.map (fun m => splitTags (m.genre.getD ""))).flatten.dedup).insertionSort
          (· ≤ ·)) :=
      List.sorted_insertionSort _ _
    have hn : (((rec.df.map (fun m => splitTags (m.genre.getD ""))).flatten.dedup).insertionSort
        (· ≤ ·)).Nodup :=
      ((List.perm_insertionSort _ _).nodup_iff).mpr (List.nodup_dedup _)
    exact (List.Pairwise.and hs hn).imp (fun hab => lt_of_le_of_ne hab.1 hab.2)
  · intro t
    rw [List.mem_insertionSort, List.mem_dedup, List.mem_flatten]
    constructor
    · rintro ⟨s, hsmem, hts⟩
      rcases List.mem_map.mp hsmem with ⟨m, hm, rfl⟩
      obtain ⟨g, hg⟩ := Option.isSome_iff_exists.mp (h m hm)
      refine ⟨m, hm, g, hg, ?_⟩
      rw [hg] at hts
      simpa using hts
    · rintro ⟨m, hm, g, hg, ht⟩
      refine ⟨splitTags (m.genre.getD ""), List.mem_map_of_mem _ hm, ?_⟩
      rw [hg]
      simpa using ht

/-- C5 witness: a table with Genre cells "Action, Comedy" and "comedy, Drama"
satisfies the hypothesis and the characterization ("Comedy" and "comedy"
count as distinct tags). -/
theorem get_genres_characterization_witness :
    (∀ m ∈ rc5.df, m.genre.isSome) ∧
    (∃ l, rc5.get_genres = Except.ok l ∧ l.Pairwise (· < ·) ∧
      ∀ t, t ∈ l ↔ ∃ m ∈ rc5.df, ∃ g, m.genre = some g ∧ t ∈ splitTags g) :=
  ⟨by decide, @get_genres_characterization rc5 (by decide)⟩

/-- C7 (counterexample): a genre tag "(" is an invalid regular expression,
so the call fails — `filter_movies` does have a failure mode. -/
theorem filter_movies_raises_counterexample :
    rc6.filter_movies ["("] (-1) "" = Except.error "re.error: bad pattern" := by
  rfl

/-- C7 (amended): when the genre tags and the search text are free of regex
metacharacters, `filter_movies` always returns a view — null fields are
treated as non-matches and an empty view is a normal outcome. -/
theorem filter_movies_total_of_literal (rec : MovieRecommender) {genres : List String}
    (rating : ℚ) {q : String}
    (hg : ∀ t ∈ genres, ∀ c ∈ t.toList, c ∉ reMetachars)
    (hq : ∀ c ∈ q.toList, c ∉ reMetachars) :
    ∃ out, rec.filter_movies genres rating q = Except.ok out := by
  obtain ⟨d1, h1⟩ := genreStep_isOk_of_literal rec.df hg
  obtain ⟨d2, h2⟩ := searchStep_isOk_of_literal (ratingStep rating d1) hq
  refine ⟨sortStep d2, ?_⟩
  unfold MovieRecommender.filter_movies
  rw [h1]
  show (match searchStep q (ratingStep rating d1) with
    | Except.error e => Except.error e
    | Except.ok data => Except.ok (sortStep data)) = Except.ok (sortStep d2)
  rw [h2]

/-- C7 witness: on an empty table with literal criteria the call returns the
empty view rather than failing. -/
theorem filter_movies_total_of_literal_witness :
    (∀ t ∈ ["Action"], ∀ c ∈ t.toList, c ∉ reMetachars) ∧
    (∀ c ∈ "zz".toList, c ∉ reMetachars) ∧
    (∃ out, rc7.filter_movies ["Action"] (-1) "zz" = Except.ok out) ∧
    rc7.filter_movies ["Action"] (-1) "zz" = Except.ok [] :=
  ⟨by decide, by decide,
    @filter_movies_total_of_literal rc7 ["Action"] (-1) "zz" (by decide) (by decide),
    by rfl⟩

/-- C9: the genre tags (joined with "|") and the search text are fed to the
regex engine: an invalid pattern such as "(" raises, and the "." wildcard
matches records whose Genre or Title does not literally contain ".". -/
theorem filter_movies_regex_semantics :
    rc9.filter_movies [] (-1) "(" = Except.error "re.error: bad pattern" ∧
    (rc9.filter_movies ["."] (-1) "" = Except.ok [z1] ∧
      ¬ containsCI "." "Animation, Comedy") ∧
    (rc9.filter_movies [] (-1) "." = Except.ok [z1] ∧
      ¬ containsCI "." "Zootopia") :=
  ⟨by rfl, ⟨by rfl, by decide⟩, ⟨by rfl, by decide⟩⟩
